import Mathlib

/-!
Verification of the nacelle process runner, service container and worker
against their natural-language specification.

The runner core (`NewProcessRunner` / `Run`) is exercised by the test suite
but its implementation file is not part of the sources at hand, so the
runner is modelled from the specification as a deterministic trace
semantics; concurrency is flattened into the event order the specification
prescribes (spawn order within a tier, reverse tier order in the cascade).
The service container (`service.go`) and the worker (`process/worker.go`)
are embedded directly from the source.
-/

set_option autoImplicit false

namespace Nacelle

/-- Observable lifecycle events of a run.  `initE l ok` records an `Init`
invocation on the unit labelled `l` and whether it succeeded; `startE`
records a `Start` invocation; `stopE l eff` records a `Stop` invocation,
with `eff = true` when this is the first `Stop` reaching the process (the
process-side once-latch actually fires); `emitE` is a value emitted on the
error stream and `closeE` is the closing of the stream. -/
inductive Event where
  | initE  (label : String) (ok : Bool)
  | startE (label : String)
  | stopE  (label : String) (eff : Bool)
  | emitE  (msg : String)
  | closeE
deriving DecidableEq

/-- Modelled from the spec: behavioural summary of a registered unit.
`label` identifies the unit in the trace (the name the mock processes of
the test suite report on their channels); `display` is the registered
display name used in emitted error messages (`WithProcessName`, defaulting
to a name synthesized from the type); `priority` and `silentExit` are the
registration metadata; `initResult`/`stopResult` are the errors the unit's
`Init`/`Stop` return (`none` = success). -/
structure ProcM where
  label : String
  display : String
  priority : Nat
  silentExit : Bool
  initResult : Option String
  stopResult : Option String
deriving DecidableEq

/-- Error-message format `"failed to initialize <name> (<err>)"`. -/
def initFailMsg (display err : String) : String :=
  "failed to initialize " ++ display ++ " (" ++ err ++ ")"

/-- Error-message format `"<name> returned a fatal error (<err>)"`. -/
def fatalMsg (display err : String) : String :=
  display ++ " returned a fatal error (" ++ err ++ ")"

/-- Error-message format `"<name> returned error from stop (<err>)"`. -/
def stopErrMsg (display err : String) : String :=
  display ++ " returned error from stop (" ++ err ++ ")"

/-- Modelled from the spec: the sequential init sub-phase over an ordered
list of units.  Each unit's `Init` is invoked in order; on the first
failure the phase aborts, producing the `failed to initialize` message and
skipping the remaining units. -/
def initPhase : List ProcM → List Event × Option String
  | [] => ([], none)
  | p :: rest =>
    match p.initResult with
    | none =>
      let r := initPhase rest
      (Event.initE p.label true :: r.1, r.2)
    | some err => ([Event.initE p.label false], some (initFailMsg p.display err))

/-- Insert a priority into an ascending duplicate-free list of priorities. -/
def insertKey (n : Nat) : List Nat → List Nat
  | [] => [n]
  | m :: ms =>
    if n < m then n :: m :: ms
    else if n = m then m :: ms
    else m :: insertKey n ms

/-- Modelled from the spec: the sorted list of distinct priorities of the
registered processes, ascending. -/
def tierKeys (ps : List ProcM) : List Nat :=
  ps.foldr (fun p acc => insertKey p.priority acc) []

/-- Modelled from the spec: the priority tiers in ascending priority
order; within a tier, processes appear in registration order. -/
def tiersOf (ps : List ProcM) : List (List ProcM) :=
  (tierKeys ps).map (fun k => ps.filter (fun p => p.priority = k))

/-- Modelled from the spec: the start sub-phase of a tier spawns one
`Start` invocation per process, in registration (spawn) order. -/
def startTierEvents (t : List ProcM) : List Event :=
  t.map (fun p => Event.startE p.label)

/-- Modelled from the spec: the tier loop.  For each tier, run the init
sub-phase; on failure return the emission message and the tiers started so
far (the failing tier is not started).  Otherwise issue the tier's `Start`
invocations and continue.  Returns the events, the abort message (if any)
and the list of started tiers in ascending order. -/
def tierPhase : List (List ProcM) → List Event × Option String × List (List ProcM)
  | [] => ([], none, [])
  | t :: ts =>
    match initPhase t with
    | (es, some msg) => (es, some msg, [])
    | (es, none) =>
      let r := tierPhase ts
      (es ++ startTierEvents t ++ r.1, r.2.1, t :: r.2.2)

/-- Modelled from the spec: stop one tier of the cascade.  Every process
of the tier receives a `Stop` invocation; the invocation is effective only
if the process was not already stopped (`stopped` accumulates labels of
effectively-stopped processes).  Stop errors are collected as messages.
Returns the events, the updated stopped set and the collected messages. -/
def cascadeTier : List ProcM → List String → List Event × List String × List String
  | [], stopped => ([], stopped, [])
  | p :: t, stopped =>
    let eff := !(stopped.contains p.label)
    let stopped₁ := if eff then p.label :: stopped else stopped
    let msgs₀ := match p.stopResult with
      | some err => [stopErrMsg p.display err]
      | none => []
    let r := cascadeTier t stopped₁
    (Event.stopE p.label eff :: r.1, r.2.1, msgs₀ ++ r.2.2)

/-- Modelled from the spec: run the cascade over a list of tiers (already
in the order the cascade visits them, i.e. reverse tier order). -/
def cascadeAll : List (List ProcM) → List String → List Event × List String × List String
  | [], stopped => ([], stopped, [])
  | t :: ts, stopped =>
    let r := cascadeTier t stopped
    let r₂ := cascadeAll ts r.2.1
    (r.1 ++ r₂.1, r₂.2.1, r.2.2 ++ r₂.2.2)

/-- Modelled from the spec: the full shutdown cascade over the started
tiers (given in ascending order): stop tiers in reverse tier order, then
emit the collected stop-error messages, then close the error stream
(scenario C of the spec: fatal error, stops `p4, p3, p2, p1`, stop-error
message, close). -/
def doCascade (started : List (List ProcM)) (stopped : List String) : List Event :=
  let r := cascadeAll started.reverse stopped
  r.1 ++ r.2.2.map Event.emitE ++ [Event.closeE]

/-- Modelled from the spec: an external stimulus during supervision:
either a direct external `Stop` call on a process, or a process's `Start`
returning with the given result. -/
inductive SupEvent where
  | extStop (label : String)
  | complete (label : String) (err : Option String)
deriving DecidableEq

/-- Find a registered process by label. -/
def findProc (ps : List ProcM) (l : String) : Option ProcM :=
  ps.find? (fun p => p.label = l)

/-- Whether every started process has finished. -/
def allFinished (started : List (List ProcM)) (finished : List String) : Bool :=
  started.all (fun t => t.all (fun p => finished.contains p.label))

/-- Modelled from the spec: the supervisor.  It consumes the stimulus
script; an external `Stop` marks the process stopped (effectively, if
first); a completion is classified benign (`nil` result and `silentExit`)
or fatal.  A fatal completion emits the fatal message and triggers the
cascade, after which the stream closes; if all started processes finish
benignly the stream closes with no cascade.  The returned flag records
whether the cascade fired. -/
def supervise (procs : List ProcM) (started : List (List ProcM)) :
    List String → List String → List SupEvent → List Event × Bool
  | _, _, [] => ([], false)
  | stopped, finished, SupEvent.extStop l :: rest =>
    let eff := !(stopped.contains l)
    let stopped' := if eff then l :: stopped else stopped
    let r := supervise procs started stopped' finished rest
    (Event.stopE l eff :: r.1, r.2)
  | stopped, finished, SupEvent.complete l err :: rest =>
    match findProc procs l with
    | none => supervise procs started stopped finished rest
    | some p =>
      if err = none ∧ p.silentExit then
        let finished' := l :: finished
        if allFinished started finished' then ([Event.closeE], false)
        else supervise procs started stopped finished' rest
      else
        let msg := fatalMsg p.display (match err with | some e => e | none => "<nil>")
        (Event.emitE msg :: doCascade started stopped, true)

/-- Modelled from the spec: a complete run of the process runner.  The
initializers run first in registration order (a failure emits and closes
with nothing to stop); then the tier loop initializes and starts each tier
in ascending priority order (an init failure emits and cascades over the
started lower tiers); then the supervisor consumes the stimulus script.
Returns the event trace and whether the cascade fired. -/
def runModel (inits procs : List ProcM) (script : List SupEvent) : List Event × Bool :=
  match initPhase inits with
  | (es, some msg) => (es ++ [Event.emitE msg, Event.closeE], true)
  | (es, none) =>
    match tierPhase (tiersOf procs) with
    | (es₂, some msg, started) =>
      (es ++ es₂ ++ [Event.emitE msg] ++ doCascade started [], true)
    | (es₂, none, started) =>
      let r := supervise procs started [] [] script
      (es ++ es₂ ++ r.1, r.2)

/-- The tiers whose start sub-phase completed in a run (ascending order). -/
def startedTiersOf (inits procs : List ProcM) : List (List ProcM) :=
  match initPhase inits with
  | (_, some _) => []
  | (_, none) => (tierPhase (tiersOf procs)).2.2

/-- Labels of the processes whose `Start` was invoked in a run. -/
def startedLabels (inits procs : List ProcM) : List String :=
  (startedTiersOf inits procs).flatten.map (fun p => p.label)

/-- The `Init` invocations of a trace, as labels. -/
def initLabels (tr : List Event) : List String :=
  tr.filterMap (fun e => match e with | Event.initE l _ => some l | _ => none)

/-- The `Start` invocations of a trace, as labels. -/
def startLabels (tr : List Event) : List String :=
  tr.filterMap (fun e => match e with | Event.startE l => some l | _ => none)

/-- The `Stop` invocations of a trace, as labels (effective or not). -/
def stopLabels (tr : List Event) : List String :=
  tr.filterMap (fun e => match e with | Event.stopE l _ => some l | _ => none)

/-- The emissions of a trace, in order. -/
def emits (tr : List Event) : List String :=
  tr.filterMap (fun e => match e with | Event.emitE m => some m | _ => none)

/-! ### Concrete scenarios from the test suite (`TestRunOrder`,
`TestRunNonBlockingProcesses`, `TestProcessError`,
`TestInitializationError`). -/

/-- Scenario A (`TestRunOrder`): the three initializers. -/
def runOrderInits : List ProcM :=
  [⟨"init1", "init1", 0, false, none, none⟩,
   ⟨"init2", "init2", 0, false, none, none⟩,
   ⟨"init3", "init3", 0, false, none, none⟩]

/-- Scenario A (`TestRunOrder`): four processes at priorities 1, 2, 1, 2
in registration order. -/
def runOrderProcs : List ProcM :=
  [⟨"proc1", "proc1", 1, false, none, none⟩,
   ⟨"proc2", "proc2", 2, false, none, none⟩,
   ⟨"proc3", "proc3", 1, false, none, none⟩,
   ⟨"proc4", "proc4", 2, false, none, none⟩]

/-- Scenario A stimulus: the test calls `proc1.Stop()` externally, which
makes `proc1`'s `Start` return `nil`; `proc1` is not silent-exit. -/
def runOrderScript : List SupEvent :=
  [SupEvent.extStop "proc1", SupEvent.complete "proc1" none]

/-- The trace of scenario A. -/
def runOrderTrace : List Event :=
  (runModel runOrderInits runOrderProcs runOrderScript).1

/-- Scenario B (`TestRunNonBlockingProcesses`): `proc1` and `proc2` are
registered with `WithSilentExit()`. -/
def silentProcs : List ProcM :=
  [⟨"proc1", "proc1", 1, true, none, none⟩,
   ⟨"proc2", "proc2", 2, true, none, none⟩,
   ⟨"proc3", "proc3", 1, false, none, none⟩,
   ⟨"proc4", "proc4", 2, false, none, none⟩]

/-- Scenario B stimulus: `proc1.Stop()`, `proc2.Stop()` (benign silent
exits), then `proc3.Stop()` whose completion is fatal. -/
def silentScript : List SupEvent :=
  [SupEvent.extStop "proc1", SupEvent.complete "proc1" none,
   SupEvent.extStop "proc2", SupEvent.complete "proc2" none,
   SupEvent.extStop "proc3", SupEvent.complete "proc3" none]

/-- The trace of scenario B. -/
def silentTrace : List Event :=
  (runModel [] silentProcs silentScript).1

/-- Scenario C (`TestProcessError`): `proc2` is registered as "foo" and
its `Stop` returns "error in stop"; `proc4` is registered as "bar" and its
`Start` returns "error in start". -/
def procErrProcs : List ProcM :=
  [⟨"proc1", "proc1", 1, false, none, none⟩,
   ⟨"proc2", "foo", 2, false, none, some "error in stop"⟩,
   ⟨"proc3", "proc3", 3, false, none, none⟩,
   ⟨"proc4", "bar", 4, false, none, none⟩]

/-- Scenario C stimulus: `proc4`'s `Start` returns its error. -/
def procErrScript : List SupEvent :=
  [SupEvent.complete "proc4" (some "error in start")]

/-- The trace of scenario C. -/
def procErrTrace : List Event :=
  (runModel [] procErrProcs procErrScript).1

/-- Scenario D (`TestInitializationError`): five processes at priorities
1, 2, 3, 3, 3; `proc4` is registered as "foo" and its `Init` fails with
"error in init". -/
def initErrProcs : List ProcM :=
  [⟨"proc1", "proc1", 1, false, none, none⟩,
   ⟨"proc2", "proc2", 2, false, none, none⟩,
   ⟨"proc3", "proc3", 3, false, none, none⟩,
   ⟨"proc4", "foo", 3, false, some "error in init", none⟩,
   ⟨"proc5", "proc5", 3, false, none, none⟩]

/-- The trace of scenario D (the run aborts during the tier-3 init
sub-phase; no supervision stimulus is needed). -/
def initErrTrace : List Event :=
  (runModel [] initErrProcs []).1

/-! ### Claims about the runner scenarios -/

/-! ### Service container (`service.go`) -/

/-- Decidable equality for `Except`, used to evaluate container results on
concrete inputs. -/
instance instDecEqExcept {ε α : Type} [DecidableEq ε] [DecidableEq α] :
    DecidableEq (Except ε α)
  | Except.error e, Except.error f =>
    if h : e = f then isTrue (by rw [h])
    else isFalse (fun hh => h (Except.error.inj hh))
  | Except.error _, Except.ok _ => isFalse (fun hh => Except.noConfusion hh)
  | Except.ok _, Except.error _ => isFalse (fun hh => Except.noConfusion hh)
  | Except.ok a, Except.ok b =>
    if h : a = b then isTrue (by rw [h])
    else isFalse (fun hh => h (Except.ok.inj hh))

/-- A service value held by the container.  `containerSelf` stands for the
container's self-reference registered under the key `"container"` by
`NewServiceContainer`; `plain t il` is any other service with Go dynamic
type name `t`, with `il` recording whether it implements the `Logger`
interface (Go: `service.(Logger)`). -/
inductive Service where
  | containerSelf
  | plain (typeName : String) (isLogger : Bool)
deriving DecidableEq

/-- Whether the service value implements the `Logger` interface.  A
`*ServiceContainer` does not. -/
def Service.isLoggerB : Service → Bool
  | Service.containerSelf => false
  | Service.plain _ il => il

/-- The Go dynamic type name of a service value (used for the
convertibility check in `loadServiceField`). -/
def Service.typeName : Service → String
  | Service.containerSelf => "*nacelle.ServiceContainer"
  | Service.plain t _ => t

/-- The errors `ServiceContainer` methods return. -/
inductive SvcErr where
  | noService (key : String)
  | notLogger
  | duplicateKey (key : String)
deriving DecidableEq

/-- `ServiceContainer`: a key-to-service registry.  Go uses a
`map[interface{}]interface{}`; the claims only use string keys, so the map
is embedded as an association list over `String` with first-match
lookup. -/
structure SvcContainer where
  services : List (String × Service)
deriving DecidableEq

/-- `ServiceContainer.Get`: look the key up, or fail with the
`no service registered` error. -/
def SvcContainer.get (c : SvcContainer) (key : String) : Except SvcErr Service :=
  match c.services.lookup key with
  | some s => Except.ok s
  | none => Except.error (SvcErr.noService key)

/-- `ServiceContainer.Set` from `service.go`: for the key `"logger"` the
value must implement `Logger` (checked first); then a present key is a
duplicate-key error; otherwise the binding is added. -/
def SvcContainer.set (c : SvcContainer) (key : String) (service : Service) :
    Except SvcErr SvcContainer :=
  if key = "logger" ∧ service.isLoggerB = false then Except.error SvcErr.notLogger
  else if (c.services.lookup key).isSome then Except.error (SvcErr.duplicateKey key)
  else Except.ok ⟨(key, service) :: c.services⟩

/-- `NewServiceContainer`: an empty container into which the container
itself is immediately `Set` under the key `"container"` (the error is
discarded in the source; it cannot occur on an empty container). -/
def newServiceContainer : SvcContainer :=
  match SvcContainer.set ⟨[]⟩ "container" Service.containerSelf with
  | Except.ok c => c
  | Except.error _ => ⟨[]⟩

/-- A sample logger service and a sample non-logger service. -/
def sampleLogger : Service := Service.plain "log.NilLogger" true

/-- A sample service value that does not implement `Logger`. -/
def sampleNonLogger : Service := Service.plain "int" false

/-- A container in which the key `"logger"` is already bound. -/
def loggerBoundContainer : SvcContainer :=
  match newServiceContainer.set "logger" sampleLogger with
  | Except.ok c => c
  | Except.error _ => newServiceContainer

/-- A container extended with one extra plain binding. -/
def extendedContainer : SvcContainer :=
  match newServiceContainer.set "x" sampleNonLogger with
  | Except.ok c => c
  | Except.error _ => newServiceContainer

/-! ### Reflective injection (`ServiceContainer.Inject` in `service.go`).
Go reflection is embedded as follows: an object is either a struct (after
pointer indirection) with an ordered list of fields, or not a struct; a
field carries its name, its `service` and `optional` tags, its current
value, and the reflection predicates `IsValid`/`CanSet`; Go's
`ConvertibleTo` between dynamic types is abstracted as equality of type
names. -/

/-- A struct field as seen by reflection. -/
structure Field where
  fname : String
  serviceTag : String
  optionalTag : String
  value : Option Service
  settable : Bool
  valid : Bool
  ftype : String
deriving DecidableEq

/-- An injected object: a struct (after pointer indirection) or not. -/
inductive Obj where
  | strct (fields : List Field)
  | nonStruct
deriving DecidableEq

/-- The errors `loadServiceField` can produce. -/
inductive InjErr where
  | invalidField (name : String)
  | cannotSet (name : String)
  | invalidOptionalTag (name : String)
  | getError (e : SvcErr)
  | notAssignable (name : String) (typeName : String)
deriving DecidableEq

/-- Go's `strconv.ParseBool`: accepts `1 t T TRUE true True` and
`0 f F FALSE false False`. -/
def parseBool (s : String) : Option Bool :=
  if s ∈ ["1", "t", "T", "TRUE", "true", "True"] then some true
  else if s ∈ ["0", "f", "F", "FALSE", "false", "False"] then some false
  else none

/-- `loadServiceField` from `service.go`: validity and settability checks,
then the container lookup with the `optional` tag fallback, then the
convertibility check; on success the field receives the service value. -/
def loadServiceField (c : SvcContainer) (f : Field) : Except InjErr Field :=
  if f.valid = false then Except.error (InjErr.invalidField f.fname)
  else if f.settable = false then Except.error (InjErr.cannotSet f.fname)
  else
    match c.get f.serviceTag with
    | Except.error e =>
      if f.optionalTag ≠ "" then
        match parseBool f.optionalTag with
        | none => Except.error (InjErr.invalidOptionalTag f.fname)
        | some true => Except.ok f
        | some false => Except.error (InjErr.getError e)
      else Except.error (InjErr.getError e)
    | Except.ok v =>
      if v.typeName = f.ftype then Except.ok { f with value := some v }
      else Except.error (InjErr.notAssignable f.fname v.typeName)

/-- The field loop of `Inject`: fields with an empty `service` tag are
skipped; a failing tagged field aborts the loop (leaving it and the
remaining fields unchanged); a successful one is replaced by its loaded
version. -/
def injectFields (c : SvcContainer) : List Field → Option InjErr × List Field
  | [] => (none, [])
  | f :: rest =>
    if f.serviceTag = "" then
      let r := injectFields c rest
      (r.1, f :: r.2)
    else
      match loadServiceField c f with
      | Except.error e => (some e, f :: rest)
      | Except.ok f₂ =>
        let r := injectFields c rest
        (r.1, f₂ :: r.2)

/-- `ServiceContainer.Inject`: a non-struct object is returned unchanged
with a `nil` error; a struct has its fields processed in order. -/
def inject (c : SvcContainer) : Obj → Option InjErr × Obj
  | Obj.nonStruct => (none, Obj.nonStruct)
  | Obj.strct fs =>
    let r := injectFields c fs
    (r.1, Obj.strct r.2)

/-- A field with an empty `service` tag, used as a concrete input. -/
def plainField : Field :=
  ⟨"Plain", "", "", none, true, true, "int"⟩

/-- A field tagged `service:"container"`. -/
def taggedField : Field :=
  ⟨"Container", "container", "", none, true, true, "*nacelle.ServiceContainer"⟩

/-! ### Worker (`process/worker.go`).  The worker's `halt` channel and
`once` latch are embedded as a single `halted` flag: `close(halt)` guarded
by `once.Do` sets it, and a `select` on the channel reads it.  `Start`'s
loop is driven by a script of observations: an external `Stop` call
arriving between iterations, or the clock firing with `spec.Tick`
returning the given result; when the halt channel is closed the loop's
`select` takes the halt case and breaks (the Go `select` chooses randomly
among ready cases, so a closed channel is taken after at most finitely
many random draws; the model takes it immediately). -/

/-- The worker state relevant to its lifecycle: whether `halt` is closed. -/
structure WorkerM where
  halted : Bool
deriving DecidableEq

/-- `newWorker`: the `halt` channel starts open. -/
def WorkerM.new : WorkerM := ⟨false⟩

/-- `Worker.Stop`: `once.Do(close(halt))` then `return` — the named error
result is never assigned, so `Stop` always returns `nil`. -/
def WorkerM.stop (w : WorkerM) : WorkerM × Option String :=
  ({ w with halted := true }, none)

/-- `Worker.IsDone`: a non-blocking `select` on the halt channel. -/
def WorkerM.isDone (w : WorkerM) : Bool := w.halted

/-- An observation driving one iteration of `Worker.Start`'s loop. -/
inductive WEvent where
  | stopCall
  | tick (res : Option String)
deriving DecidableEq

/-- `Worker.Start`: loop with `defer w.Stop()`.  Each iteration first
checks the halt channel (break on closed, returning `nil`); otherwise the
next observation is consumed: an external `Stop` closes the channel, a
tick runs `spec.Tick`, whose error is returned (through the deferred
`Stop`).  Returns `none` while the loop is still running (script
exhausted), or `some (result, final worker)` when `Start` returns. -/
def startLoop : WorkerM → List WEvent → Option (Option String × WorkerM)
  | w, [] => if w.halted then some (none, (w.stop).1) else none
  | w, ev :: rest =>
    if w.halted then some (none, (w.stop).1)
    else
      match ev with
      | WEvent.stopCall => startLoop (w.stop).1 rest
      | WEvent.tick none => startLoop w rest
      | WEvent.tick (some e) => some (some e, (w.stop).1)

/-! ### Theorems -/

/-- C1: for initializers init1, init2, init3 and processes proc1 (priority
1), proc2 (priority 2), proc3 (priority 1), proc4 (priority 2), the `Init`
sequence is exactly init1, init2, init3, proc1, proc3, proc2, proc4, and
both `Start` invocations of the priority-1 tier occur before any `Start`
invocation of the priority-2 tier. -/
theorem claim1_run_order :
    initLabels runOrderTrace =
      ["init1", "init2", "init3", "proc1", "proc3", "proc2", "proc4"] ∧
    (startLabels runOrderTrace).length = 4 ∧
    ((startLabels runOrderTrace).take 2 = ["proc1", "proc3"] ∨
      (startLabels runOrderTrace).take 2 = ["proc3", "proc1"]) ∧
    ((startLabels runOrderTrace).drop 2 = ["proc2", "proc4"] ∨
      (startLabels runOrderTrace).drop 2 = ["proc4", "proc2"]) := by
  decide

/-- C2: in scenario D (priorities 1, 2, 3, 3, 3, with the fourth process
failing `Init`), initialization stops at the failing process; the tier-3
process whose `Init` already succeeded (proc3) is neither started nor
stopped; the cascade stops exactly the processes started in strictly lower
tiers, in reverse tier order (proc2 then proc1); and proc5 is never
initialized. -/
theorem claim2_init_error_partial_start :
    initLabels initErrTrace = ["proc1", "proc2", "proc3", "proc4"] ∧
    Event.initE "proc3" true ∈ initErrTrace ∧
    startLabels initErrTrace = ["proc1", "proc2"] ∧
    stopLabels initErrTrace = ["proc2", "proc1"] ∧
    (initLabels initErrTrace).count "proc5" = 0 := by
  decide

/-- C4: in scenario C (priorities 1..4, proc4 = "bar" fails `Start`,
proc2 = "foo" fails `Stop`), the runner first emits the fatal error, then
stops the started processes in reverse tier order proc4, proc3, proc2,
proc1, then emits the stop error, and then closes the stream (exactly one
close, as the last event). -/
theorem claim4_fatal_start_error_cascade :
    emits procErrTrace =
      [fatalMsg "bar" "error in start", stopErrMsg "foo" "error in stop"] ∧
    stopLabels procErrTrace = ["proc4", "proc3", "proc2", "proc1"] ∧
    procErrTrace.indexOf (Event.emitE (fatalMsg "bar" "error in start")) <
      procErrTrace.indexOf (Event.stopE "proc4" true) ∧
    procErrTrace.indexOf (Event.stopE "proc1" true) <
      procErrTrace.indexOf (Event.emitE (stopErrMsg "foo" "error in stop")) ∧
    procErrTrace.getLast? = some Event.closeE ∧
    procErrTrace.count Event.closeE = 1 := by
  decide

/-- C5: in scenario B, the silent-exit processes proc1 and proc2 finishing
with `nil` are benign: up to (and including) the external stop of proc3 no
error is emitted and the stream is still open; when the non-silent proc3's
`Start` returns, the cascade fires, all four started processes are
effectively stopped exactly once, and the stream closes exactly once, as
the last event. -/
theorem claim5_silent_exit_benign :
    startLabels silentTrace = ["proc1", "proc3", "proc2", "proc4"] ∧
    emits (silentTrace.take
      (silentTrace.indexOf (Event.stopE "proc3" true) + 1)) = [] ∧
    (silentTrace.take
      (silentTrace.indexOf (Event.stopE "proc3" true) + 1)).count Event.closeE = 0 ∧
    (runModel [] silentProcs silentScript).2 = true ∧
    silentTrace.count (Event.stopE "proc1" true) = 1 ∧
    silentTrace.count (Event.stopE "proc2" true) = 1 ∧
    silentTrace.count (Event.stopE "proc3" true) = 1 ∧
    silentTrace.count (Event.stopE "proc4" true) = 1 ∧
    silentTrace.getLast? = some Event.closeE ∧
    silentTrace.count Event.closeE = 1 := by
  decide

/-- C3 counterexample: in the scenario-D run, proc3's `Init` returned
success, the run closed its stream, and yet proc3 never receives `Stop` —
so it is not the case that every process whose `Init` succeeded is stopped
before `Run` returns. -/
theorem claim3_counterexample :
    Event.initE "proc3" true ∈ initErrTrace ∧
    Event.closeE ∈ initErrTrace ∧
    initErrTrace.count (Event.stopE "proc3" true) = 0 ∧
    initErrTrace.count (Event.stopE "proc3" false) = 0 ∧
    (stopLabels initErrTrace).count "proc3" = 0 := by
  decide

/-- `Get` returns `ok v` exactly when the key is bound to `v`. -/
theorem get_eq_ok_iff (c : SvcContainer) (k : String) (v : Service) :
    c.get k = Except.ok v ↔ c.services.lookup k = some v := by
  unfold SvcContainer.get
  cases h : c.services.lookup k <;> simp

/-- A successful `Set` means the key was absent (and, for `"logger"`, the
value implements `Logger`), and the new container holds the new binding in
front of the old ones. -/
theorem set_eq_ok (c : SvcContainer) (k : String) (s : Service) (c' : SvcContainer)
    (h : c.set k s = Except.ok c') :
    c.services.lookup k = none ∧ c' = ⟨(k, s) :: c.services⟩ := by
  unfold SvcContainer.set at h
  split at h
  · exact absurd h (by simp)
  · split at h
    · exact absurd h (by simp)
    · next hdup =>
      refine ⟨Option.not_isSome_iff_eq_none.mp hdup, ?_⟩
      exact (Except.ok.inj h).symm

/-- C6 counterexample: with `"logger"` already present, `Set("logger",
non-logger)` returns the logger-type error, not the duplicate-key error —
the source checks the `Logger` assertion before the duplicate check, so a
present key does not always yield the duplicate-key error. -/
theorem claim6_counterexample :
    (loggerBoundContainer.services.lookup "logger").isSome = true ∧
    loggerBoundContainer.set "logger" sampleNonLogger =
      Except.error SvcErr.notLogger := by
  decide

/-- C6 (amended): `Set` on a present key always returns an error and
leaves the container unchanged (no updated container is produced): the
duplicate-key error, except when the key is `"logger"` and the value does
not implement `Logger`, in which case the logger-type error is returned
first; and `Set("logger", v)` with a non-`Logger` `v` always returns the
logger-type error. -/
theorem claim6_set_error_amended (c : SvcContainer) (key : String) (s : Service) :
    ((c.services.lookup key).isSome →
      c.set key s = Except.error
        (if key = "logger" ∧ s.isLoggerB = false then SvcErr.notLogger
         else SvcErr.duplicateKey key)) ∧
    (key = "logger" → s.isLoggerB = false →
      c.set key s = Except.error SvcErr.notLogger) := by
  constructor
  · intro h
    by_cases hc : key = "logger" ∧ s.isLoggerB = false
    · rw [if_pos hc]
      unfold SvcContainer.set
      rw [if_pos hc]
    · rw [if_neg hc]
      unfold SvcContainer.set
      rw [if_neg hc, if_pos h]
  · intro hk hl
    unfold SvcContainer.set
    rw [if_pos ⟨hk, hl⟩]

/-- C6 witness: the amended statement at concrete inputs — a duplicate
plain key yields the duplicate-key error, and a non-logger value for
`"logger"` yields the logger-type error. -/
theorem claim6_witness :
    newServiceContainer.set "container" sampleNonLogger =
      Except.error (SvcErr.duplicateKey "container") ∧
    loggerBoundContainer.set "logger" sampleNonLogger =
      Except.error SvcErr.notLogger := by
  constructor
  · have h := (claim6_set_error_amended newServiceContainer "container"
      sampleNonLogger).1 (by decide)
    simpa using h
  · exact (claim6_set_error_amended loggerBoundContainer "logger"
      sampleNonLogger).2 rfl rfl

/-- C8: `NewServiceContainer` binds `"container"` to the container itself;
every successful `Set` preserves that binding; and any `Set` under the key
`"container"` on a container satisfying the invariant fails with the
duplicate-key error (producing no modified container). -/
theorem claim8_container_self_binding :
    newServiceContainer.get "container" = Except.ok Service.containerSelf ∧
    (∀ (c : SvcContainer) (key : String) (s : Service) (c' : SvcContainer),
      c.get "container" = Except.ok Service.containerSelf →
      c.set key s = Except.ok c' →
      c'.get "container" = Except.ok Service.containerSelf) ∧
    (∀ (c : SvcContainer) (s : Service),
      c.get "container" = Except.ok Service.containerSelf →
      c.set "container" s = Except.error (SvcErr.duplicateKey "container")) := by
  refine ⟨by decide, ?_, ?_⟩
  · intro c key s c' hget hset
    obtain ⟨hnone, rfl⟩ := set_eq_ok c key s c' hset
    rw [get_eq_ok_iff] at hget ⊢
    have hkey : key ≠ "container" := by
      intro hk
      rw [hk, hget] at hnone
      cases hnone
    have hb : (("container" : String) == key) = false :=
      beq_eq_false_iff_ne.mpr (Ne.symm hkey)
    simpa [List.lookup, hb] using hget
  · intro c s hget
    rw [get_eq_ok_iff] at hget
    unfold SvcContainer.set
    rw [if_neg (fun hc => by exact absurd hc.1 (by decide)),
      if_pos (by rw [hget]; rfl)]

/-- C8 witness: the invariant at concrete inputs — after `Set("x", ·)` the
`"container"` binding is intact, and `Set("container", ·)` fails with the
duplicate-key error. -/
theorem claim8_witness :
    extendedContainer.get "container" = Except.ok Service.containerSelf ∧
    newServiceContainer.set "container" sampleNonLogger =
      Except.error (SvcErr.duplicateKey "container") :=
  ⟨claim8_container_self_binding.2.1 newServiceContainer "x" sampleNonLogger
      extendedContainer (by decide) (by decide),
   claim8_container_self_binding.2.2 newServiceContainer sampleNonLogger (by decide)⟩

/-- C9: `Inject` modifies only fields whose `service` tag is non-empty:
any field with an empty `service` tag is left unchanged at its position,
and injecting a non-struct object returns a `nil` error and changes
nothing. -/
theorem claim9_inject_frame (c : SvcContainer) :
    inject c Obj.nonStruct = (none, Obj.nonStruct) ∧
    (∀ (fs : List Field) (i : Nat) (f : Field),
      fs.get? i = some f → f.serviceTag = "" →
      (injectFields c fs).2.get? i = some f) := by
  refine ⟨rfl, ?_⟩
  intro fs
  induction fs with
  | nil => intro i f h _; cases h
  | cons f₀ rest ih =>
    intro i f hget htag
    by_cases h₀ : f₀.serviceTag = ""
    · cases i with
      | zero =>
        simp only [List.get?] at hget
        simp [injectFields, h₀, hget]
      | succ j =>
        simp only [List.get?] at hget
        simpa [injectFields, h₀] using ih j f hget htag
    · cases hl : loadServiceField c f₀ with
      | error e =>
        simp only [injectFields, h₀, hl, if_false]
        exact hget
      | ok f₂ =>
        cases i with
        | zero =>
          simp only [List.get?] at hget
          injection hget with hf
          subst hf
          exact absurd htag h₀
        | succ j =>
          simp only [List.get?] at hget
          simpa [injectFields, h₀, hl] using ih j f hget htag

/-- C9 witness: at a concrete struct, the untagged field is unchanged by
`Inject`, and a non-struct object passes through unchanged. -/
theorem claim9_witness :
    inject newServiceContainer Obj.nonStruct = (none, Obj.nonStruct) ∧
    (injectFields newServiceContainer [plainField, taggedField]).2.get? 0 =
      some plainField :=
  ⟨(claim9_inject_frame newServiceContainer).1,
   (claim9_inject_frame newServiceContainer).2 [plainField, taggedField] 0
     plainField (by decide) (by decide)⟩

/-- C7: `Worker.Stop` always returns `nil`; the first call closes the halt
channel; a repeated call has no further effect (it is idempotent); and
once `Stop` has been called, `Start`'s loop observes the closed halt
channel and returns `nil` immediately, whatever observations follow. -/
theorem claim7_stop_idempotent_nil :
    (∀ w : WorkerM, (w.stop).2 = none) ∧
    (∀ w : WorkerM, (w.stop).1.halted = true) ∧
    (∀ w : WorkerM, ((w.stop).1).stop = w.stop) ∧
    (∀ (w : WorkerM) (evs : List WEvent), w.halted = true →
      startLoop w evs = some (none, (w.stop).1)) := by
  refine ⟨fun w => rfl, fun w => rfl, fun w => rfl, ?_⟩
  intro w evs h
  cases evs <;> simp [startLoop, h]

/-- C7 witness: a worker stopped before `Start` (the pre-`Start` call is
safe) makes the loop return `nil` at once, even with a failing tick
pending. -/
theorem claim7_witness :
    startLoop ((WorkerM.new).stop).1 [WEvent.tick (some "boom")] =
      some (none, (((WorkerM.new).stop).1.stop).1) :=
  claim7_stop_idempotent_nil.2.2.2 ((WorkerM.new).stop).1
    [WEvent.tick (some "boom")] rfl

/-- C10: whenever `Worker.Start` returns — because the halt channel was
closed or because `spec.Tick` returned an error — the deferred `Stop` has
run, so the halt channel is closed and `IsDone` returns `true`. -/
theorem claim10_start_returns_halted (w : WorkerM) (evs : List WEvent)
    (res : Option String) (w₂ : WorkerM)
    (h : startLoop w evs = some (res, w₂)) :
    w₂.halted = true ∧ w₂.isDone = true := by
  induction evs generalizing w with
  | nil =>
    cases hw : w.halted with
    | false => simp [startLoop, hw] at h
    | true =>
      simp [startLoop, hw, WorkerM.stop] at h
      rw [← h.2]
      exact ⟨rfl, rfl⟩
  | cons ev rest ih =>
    cases hw : w.halted with
    | true =>
      simp [startLoop, hw, WorkerM.stop] at h
      rw [← h.2]
      exact ⟨rfl, rfl⟩
    | false =>
      cases ev with
      | stopCall =>
        simp only [startLoop, hw, Bool.false_eq_true, if_false] at h
        exact ih _ h
      | tick r =>
        cases r with
        | none =>
          simp only [startLoop, hw, Bool.false_eq_true, if_false] at h
          exact ih _ h
        | some e =>
          simp [startLoop, hw, WorkerM.stop] at h
          rw [← h.2]
          exact ⟨rfl, rfl⟩

/-- C10 witness: a fresh worker whose first tick fails returns the tick
error with the halt channel closed and `IsDone` true. -/
theorem claim10_witness :
    startLoop WorkerM.new [WEvent.tick (some "tick failure")] =
      some (some "tick failure", ⟨true⟩) ∧
    (⟨true⟩ : WorkerM).halted = true ∧ (⟨true⟩ : WorkerM).isDone = true :=
  ⟨rfl, claim10_start_returns_halted WorkerM.new [WEvent.tick (some "tick failure")]
    (some "tick failure") ⟨true⟩ rfl⟩

/-! ### Counting stops: the cascade effectively stops each started
process exactly once. -/

/-- `List.contains` agrees with membership (strings). -/
theorem contains_true_iff {s : List String} {a : String} :
    s.contains a = true ↔ a ∈ s := List.elem_iff

/-- `List.contains = false` means non-membership (strings). -/
theorem contains_false_iff {s : List String} {a : String} :
    s.contains a = false ↔ a ∉ s := by
  constructor
  · intro h hm
    rw [contains_true_iff.mpr hm] at h
    cases h
  · intro h
    cases hc : s.contains a
    · rfl
    · exact absurd (contains_true_iff.mp hc) h

/-- The init phases produce no `Stop` events. -/
theorem stop_not_mem_initPhase (ps : List ProcM) (l : String) (b : Bool) :
    Event.stopE l b ∉ (initPhase ps).1 := by
  induction ps with
  | nil => simp [initPhase]
  | cons p rest ih =>
    cases hp : p.initResult with
    | none => simpa [initPhase, hp] using ih
    | some e => simp [initPhase, hp]

/-- The start sub-phase produces no `Stop` events. -/
theorem stop_not_mem_startTier (t : List ProcM) (l : String) (b : Bool) :
    Event.stopE l b ∉ startTierEvents t := by
  intro h
  simp only [startTierEvents] at h
  rcases List.mem_map.mp h with ⟨p, _, hp⟩
  cases hp

/-- The tier loop produces no `Stop` events. -/
theorem stop_not_mem_tierPhase (ts : List (List ProcM)) (l : String) (b : Bool) :
    Event.stopE l b ∉ (tierPhase ts).1 := by
  induction ts with
  | nil => simp [tierPhase]
  | cons t ts ih =>
    rcases hi : initPhase t with ⟨es, m⟩
    have hes : Event.stopE l b ∉ es := by
      have := stop_not_mem_initPhase t l b
      rwa [hi] at this
    cases m with
    | some msg => simpa [tierPhase, hi] using hes
    | none =>
      simp only [tierPhase, hi, List.mem_append]
      push_neg
      exact ⟨⟨hes, stop_not_mem_startTier t l b⟩, ih⟩

/-- Emitted messages are not `Stop` events. -/
theorem stop_not_mem_emits (msgs : List String) (l : String) (b : Bool) :
    Event.stopE l b ∉ msgs.map Event.emitE := by
  intro h
  rcases List.mem_map.mp h with ⟨m, _, hm⟩
  cases hm

/-- Counting effective stops over one cascade tier: exactly one per label
of the tier not already stopped. -/
theorem cascadeTier_count (t : List ProcM) (stopped : List String) (l : String) :
    (cascadeTier t stopped).1.count (Event.stopE l true) =
      if l ∈ t.map (fun p => p.label) ∧ l ∉ stopped then 1 else 0 := by
  induction t generalizing stopped with
  | nil => simp [cascadeTier]
  | cons p t ih =>
    cases hc : stopped.contains p.label with
    | true =>
      have hm : p.label ∈ stopped := contains_true_iff.mp hc
      rw [show (cascadeTier (p :: t) stopped).1 =
            Event.stopE p.label false :: (cascadeTier t stopped).1 by
          simp [cascadeTier, hc, hm]]
      rw [List.count_cons, ih stopped]
      by_cases hl : l = p.label
      · subst hl
        simp [hm]
      · simp [List.map_cons, List.mem_cons, hl, Ne.symm hl]
    | false =>
      have hnm : p.label ∉ stopped := contains_false_iff.mp hc
      rw [show (cascadeTier (p :: t) stopped).1 =
            Event.stopE p.label true :: (cascadeTier t (p.label :: stopped)).1 by
          simp [cascadeTier, hc, hnm]]
      rw [List.count_cons, ih (p.label :: stopped)]
      by_cases hl : l = p.label
      · subst hl
        simp [hnm]
      · simp [List.map_cons, List.mem_cons, hl, Ne.symm hl]

/-- After a cascade tier, the stopped set holds the tier's labels and the
previously stopped ones. -/
theorem cascadeTier_stopped_mem (t : List ProcM) (stopped : List String) (l : String) :
    l ∈ (cascadeTier t stopped).2.1 ↔ l ∈ t.map (fun p => p.label) ∨ l ∈ stopped := by
  induction t generalizing stopped with
  | nil => simp [cascadeTier]
  | cons p t ih =>
    cases hc : stopped.contains p.label with
    | true =>
      have hm : p.label ∈ stopped := contains_true_iff.mp hc
      rw [show (cascadeTier (p :: t) stopped).2.1 =
            (cascadeTier t stopped).2.1 by simp [cascadeTier, hc, hm]]
      rw [ih stopped]
      simp only [List.map_cons, List.mem_cons]
      constructor
      · tauto
      · rintro ((rfl | h) | h)
        · exact Or.inr hm
        · exact Or.inl h
        · exact Or.inr h
    | false =>
      rw [show (cascadeTier (p :: t) stopped).2.1 =
            (cascadeTier t (p.label :: stopped)).2.1 by
          simp [cascadeTier, hc, contains_false_iff.mp hc]]
      rw [ih (p.label :: stopped)]
      simp only [List.map_cons, List.mem_cons]
      tauto

/-- A `Stop` event of a cascade tier names a label of that tier. -/
theorem stop_mem_cascadeTier (t : List ProcM) (stopped : List String)
    (l : String) (b : Bool) (h : Event.stopE l b ∈ (cascadeTier t stopped).1) :
    l ∈ t.map (fun p => p.label) := by
  induction t generalizing stopped with
  | nil => simp [cascadeTier] at h
  | cons p t ih =>
    have h' : Event.stopE l b = Event.stopE p.label (!(stopped.contains p.label)) ∨
        Event.stopE l b ∈ (cascadeTier t
          (if !(stopped.contains p.label) then p.label :: stopped else stopped)).1 := by
      rcases List.mem_cons.mp (show Event.stopE l b ∈
        Event.stopE p.label (!(stopped.contains p.label)) :: (cascadeTier t
          (if !(stopped.contains p.label) then p.label :: stopped else stopped)).1 by
        simpa [cascadeTier] using h) with h1 | h2
      · exact Or.inl h1
      · exact Or.inr h2
    rcases h' with h1 | h2
    · injection h1 with hl _
      simp [List.map_cons, hl]
    · exact List.mem_cons_of_mem _ (ih _ h2)

/-- Counting effective stops over the whole cascade list. -/
theorem cascadeAll_count (ts : List (List ProcM)) (stopped : List String) (l : String) :
    (cascadeAll ts stopped).1.count (Event.stopE l true) =
      if l ∈ ts.flatten.map (fun p => p.label) ∧ l ∉ stopped then 1 else 0 := by
  induction ts generalizing stopped with
  | nil => simp [cascadeAll]
  | cons t ts ih =>
    rw [show (cascadeAll (t :: ts) stopped).1 =
          (cascadeTier t stopped).1 ++ (cascadeAll ts (cascadeTier t stopped).2.1).1 by
        simp [cascadeAll]]
    rw [List.count_append, cascadeTier_count, ih ((cascadeTier t stopped).2.1)]
    simp only [List.flatten_cons, List.map_append, List.mem_append,
      cascadeTier_stopped_mem]
    by_cases h1 : l ∈ t.map (fun p => p.label) <;>
      by_cases h2 : l ∈ stopped <;>
      by_cases h3 : l ∈ ts.flatten.map (fun p => p.label) <;>
      simp [h1, h2, h3]

/-- A `Stop` event of the cascade names a started label. -/
theorem stop_mem_cascadeAll (ts : List (List ProcM)) (stopped : List String)
    (l : String) (b : Bool) (h : Event.stopE l b ∈ (cascadeAll ts stopped).1) :
    l ∈ ts.flatten.map (fun p => p.label) := by
  induction ts generalizing stopped with
  | nil => simp [cascadeAll] at h
  | cons t ts ih =>
    rw [show (cascadeAll (t :: ts) stopped).1 =
          (cascadeTier t stopped).1 ++ (cascadeAll ts (cascadeTier t stopped).2.1).1 by
        simp [cascadeAll]] at h
    simp only [List.flatten_cons, List.map_append, List.mem_append]
    rcases List.mem_append.mp h with h1 | h2
    · exact Or.inl (stop_mem_cascadeTier t stopped l b h1)
    · exact Or.inr (ih _ h2)

/-- Counting effective stops over `doCascade`. -/
theorem doCascade_count (started : List (List ProcM)) (stopped : List String) (l : String) :
    (doCascade started stopped).count (Event.stopE l true) =
      if l ∈ started.flatten.map (fun p => p.label) ∧ l ∉ stopped then 1 else 0 := by
  have hrev : (l ∈ started.reverse.flatten.map (fun p => p.label)) ↔
      (l ∈ started.flatten.map (fun p => p.label)) := by
    simp [List.mem_map, List.mem_flatten, List.mem_reverse]
  rw [show doCascade started stopped =
        (cascadeAll started.reverse stopped).1 ++
          ((cascadeAll started.reverse stopped).2.2.map Event.emitE ++ [Event.closeE]) by
      simp [doCascade]]
  rw [List.count_append, cascadeAll_count]
  have h2 : ((cascadeAll started.reverse stopped).2.2.map Event.emitE ++
      [Event.closeE]).count (Event.stopE l true) = 0 := by
    rw [List.count_eq_zero]
    intro hmem
    rcases List.mem_append.mp hmem with h | h
    · exact stop_not_mem_emits _ l true h
    · simp at h
  rw [h2]
  simp only [hrev, Nat.add_zero]

/-- A `Stop` event of `doCascade` names a started label. -/
theorem stop_mem_doCascade (started : List (List ProcM)) (stopped : List String)
    (l : String) (b : Bool) (h : Event.stopE l b ∈ doCascade started stopped) :
    l ∈ started.flatten.map (fun p => p.label) := by
  rw [show doCascade started stopped =
        (cascadeAll started.reverse stopped).1 ++
          ((cascadeAll started.reverse stopped).2.2.map Event.emitE ++ [Event.closeE]) by
      simp [doCascade]] at h
  rcases List.mem_append.mp h with h1 | h2
  · have := stop_mem_cascadeAll started.reverse stopped l b h1
    simpa [List.mem_map, List.mem_flatten, List.mem_reverse] using this
  · rcases List.mem_append.mp h2 with h3 | h4
    · exact absurd h3 (stop_not_mem_emits _ l b)
    · simp at h4

/-- Counting effective stops over supervision: provided every external
`Stop` stimulus names a started process and the supervision ends in a
cascade, each started label not already stopped is effectively stopped
exactly once. -/
theorem supervise_count (procs : List ProcM) (started : List (List ProcM))
    (script : List SupEvent) :
    ∀ stopped finished : List String,
    (∀ m, SupEvent.extStop m ∈ script → m ∈ started.flatten.map (fun p => p.label)) →
    (supervise procs started stopped finished script).2 = true →
    ∀ l, (supervise procs started stopped finished script).1.count (Event.stopE l true) =
      if l ∈ started.flatten.map (fun p => p.label) ∧ l ∉ stopped then 1 else 0 := by
  induction script with
  | nil =>
    intro stopped finished hext hfired l
    simp [supervise] at hfired
  | cons ev rest ih =>
    intro stopped finished hext hfired l
    have hext' : ∀ m, SupEvent.extStop m ∈ rest →
        m ∈ started.flatten.map (fun p => p.label) :=
      fun m hm => hext m (List.mem_cons_of_mem _ hm)
    cases ev with
    | extStop m =>
      have hm : m ∈ started.flatten.map (fun p => p.label) :=
        hext m (List.mem_cons_self _ _)
      have hred1 : (supervise procs started stopped finished
          (SupEvent.extStop m :: rest)).1 =
          Event.stopE m (!(stopped.contains m)) ::
            (supervise procs started
              (if !(stopped.contains m) then m :: stopped else stopped)
              finished rest).1 := rfl
      have hred2 : (supervise procs started stopped finished
          (SupEvent.extStop m :: rest)).2 =
          (supervise procs started
            (if !(stopped.contains m) then m :: stopped else stopped)
            finished rest).2 := rfl
      cases hc : stopped.contains m with
      | true =>
        have hms : m ∈ stopped := contains_true_iff.mp hc
        rw [hc] at hred1 hred2
        simp only [Bool.not_true, Bool.false_eq_true, if_false] at hred1 hred2
        rw [hred2] at hfired
        rw [hred1, List.count_cons, ih stopped finished hext' hfired l]
        have hbeq : (Event.stopE m false == Event.stopE l true) = false := by simp
        rw [hbeq]
        simp
      | false =>
        have hms : m ∉ stopped := contains_false_iff.mp hc
        rw [hc] at hred1 hred2
        simp only [Bool.not_false, if_true] at hred1 hred2
        rw [hred2] at hfired
        rw [hred1, List.count_cons, ih (m :: stopped) finished hext' hfired l]
        by_cases hl : l = m
        · subst hl
          have h2 : ¬(l ∈ started.flatten.map (fun p => p.label) ∧ l ∉ l :: stopped) :=
            fun hx => hx.2 (List.mem_cons_self _ _)
          have hpos : l ∈ started.flatten.map (fun p => p.label) ∧ l ∉ stopped := ⟨hm, hms⟩
          rw [if_neg h2, if_pos hpos]
          simp
        · simp [hl, Ne.symm hl]
    | complete m err =>
      cases hf : findProc procs m with
      | none =>
        have hred1 : (supervise procs started stopped finished
            (SupEvent.complete m err :: rest)).1 =
            (supervise procs started stopped finished rest).1 := by
          simp [supervise, hf]
        have hred2 : (supervise procs started stopped finished
            (SupEvent.complete m err :: rest)).2 =
            (supervise procs started stopped finished rest).2 := by
          simp [supervise, hf]
        rw [hred2] at hfired
        rw [hred1]
        exact ih stopped finished hext' hfired l
      | some p =>
        by_cases hben : err = none ∧ p.silentExit = true
        · cases hall : allFinished started (m :: finished) with
          | true =>
            have hred2 : (supervise procs started stopped finished
                (SupEvent.complete m err :: rest)).2 = false := by
              simp [supervise, hf, hben, hall]
            rw [hred2] at hfired
            cases hfired
          | false =>
            have hred1 : (supervise procs started stopped finished
                (SupEvent.complete m err :: rest)).1 =
                (supervise procs started stopped (m :: finished) rest).1 := by
              simp [supervise, hf, hben, hall]
            have hred2 : (supervise procs started stopped finished
                (SupEvent.complete m err :: rest)).2 =
                (supervise procs started stopped (m :: finished) rest).2 := by
              simp [supervise, hf, hben, hall]
            rw [hred2] at hfired
            rw [hred1]
            exact ih stopped (m :: finished) hext' hfired l
        · cases err with
          | some e =>
            have hred1 : (supervise procs started stopped finished
                (SupEvent.complete m (some e) :: rest)).1 =
                Event.emitE (fatalMsg p.display e) :: doCascade started stopped := by
              simp [supervise, hf]
            rw [hred1, List.count_cons, doCascade_count]
            simp
          | none =>
            have hsil : p.silentExit = false := by simpa using hben
            have hred1 : (supervise procs started stopped finished
                (SupEvent.complete m none :: rest)).1 =
                Event.emitE (fatalMsg p.display "<nil>") :: doCascade started stopped := by
              simp [supervise, hf, hsil]
            rw [hred1, List.count_cons, doCascade_count]
            simp

/-- Every `Stop` event of supervision names a started label (provided the
external stimuli do). -/
theorem stop_mem_supervise (procs : List ProcM) (started : List (List ProcM))
    (script : List SupEvent) :
    ∀ (stopped finished : List String) (l : String) (b : Bool),
    (∀ m, SupEvent.extStop m ∈ script → m ∈ started.flatten.map (fun p => p.label)) →
    Event.stopE l b ∈ (supervise procs started stopped finished script).1 →
    l ∈ started.flatten.map (fun p => p.label) := by
  induction script with
  | nil =>
    intro stopped finished l b hext h
    simp [supervise] at h
  | cons ev rest ih =>
    intro stopped finished l b hext h
    have hext' : ∀ m, SupEvent.extStop m ∈ rest →
        m ∈ started.flatten.map (fun p => p.label) :=
      fun m hm => hext m (List.mem_cons_of_mem _ hm)
    cases ev with
    | extStop m =>
      have hred1 : (supervise procs started stopped finished
          (SupEvent.extStop m :: rest)).1 =
          Event.stopE m (!(stopped.contains m)) ::
            (supervise procs started
              (if !(stopped.contains m) then m :: stopped else stopped)
              finished rest).1 := rfl
      rw [hred1] at h
      rcases List.mem_cons.mp h with h1 | h2
      · injection h1 with h1l _
        subst h1l
        exact hext _ (List.mem_cons_self _ _)
      · exact ih _ finished l b hext' h2
    | complete m err =>
      cases hf : findProc procs m with
      | none =>
        have hred1 : (supervise procs started stopped finished
            (SupEvent.complete m err :: rest)).1 =
            (supervise procs started stopped finished rest).1 := by
          simp [supervise, hf]
        rw [hred1] at h
        exact ih stopped finished l b hext' h
      | some p =>
        by_cases hben : err = none ∧ p.silentExit = true
        · cases hall : allFinished started (m :: finished) with
          | true =>
            have hred1 : (supervise procs started stopped finished
                (SupEvent.complete m err :: rest)).1 = [Event.closeE] := by
              simp [supervise, hf, hben, hall]
            rw [hred1] at h
            simp at h
          | false =>
            have hred1 : (supervise procs started stopped finished
                (SupEvent.complete m err :: rest)).1 =
                (supervise procs started stopped (m :: finished) rest).1 := by
              simp [supervise, hf, hben, hall]
            rw [hred1] at h
            exact ih stopped (m :: finished) l b hext' h
        · cases err with
          | some e =>
            have hred1 : (supervise procs started stopped finished
                (SupEvent.complete m (some e) :: rest)).1 =
                Event.emitE (fatalMsg p.display e) :: doCascade started stopped := by
              simp [supervise, hf]
            rw [hred1] at h
            rcases List.mem_cons.mp h with h1 | h2
            · cases h1
            · exact stop_mem_doCascade started stopped l b h2
          | none =>
            have hsil : p.silentExit = false := by simpa using hben
            have hred1 : (supervise procs started stopped finished
                (SupEvent.complete m none :: rest)).1 =
                Event.emitE (fatalMsg p.display "<nil>") :: doCascade started stopped := by
              simp [supervise, hf, hsil]
            rw [hred1] at h
            rcases List.mem_cons.mp h with h1 | h2
            · cases h1
            · exact stop_mem_doCascade started stopped l b h2

/-- C3 (amended): in every run of the runner in which the shutdown
cascade fires, the processes receiving an effective `Stop` before the
stream closes are exactly the processes whose `Start` was invoked, each
stopped effectively exactly once — and every `Stop` invocation (effective
or not) names a started process, so processes whose `Init` succeeded but
whose tier never started are not stopped.  (External `Stop` stimuli are
assumed to target started processes, as in the test suite.) -/
theorem claim3_stop_iff_started_amended (inits procs : List ProcM)
    (script : List SupEvent)
    (hext : ∀ m, SupEvent.extStop m ∈ script → m ∈ startedLabels inits procs)
    (hfired : (runModel inits procs script).2 = true) :
    (∀ l, (runModel inits procs script).1.count (Event.stopE l true) =
      if l ∈ startedLabels inits procs then 1 else 0) ∧
    (∀ (l : String) (b : Bool),
      Event.stopE l b ∈ (runModel inits procs script).1 →
      l ∈ startedLabels inits procs) := by
  rcases hi : initPhase inits with ⟨es, mi⟩
  have hes_nostop : ∀ (l : String) (b : Bool), Event.stopE l b ∉ es := by
    intro l b
    have := stop_not_mem_initPhase inits l b
    rwa [hi] at this
  cases mi with
  | some msg =>
    have hrun : (runModel inits procs script).1 =
        es ++ [Event.emitE msg, Event.closeE] := by
      simp [runModel, hi]
    have hsl : startedLabels inits procs = [] := by
      simp [startedLabels, startedTiersOf, hi]
    constructor
    · intro l
      rw [hrun, hsl, List.count_append,
        List.count_eq_zero.mpr (hes_nostop l true)]
      simp
    · intro l b hmem
      rw [hrun] at hmem
      rcases List.mem_append.mp hmem with h | h
      · exact absurd h (hes_nostop l b)
      · simp at h
  | none =>
    rcases ht : tierPhase (tiersOf procs) with ⟨es₂, m₂, started⟩
    have hes2_nostop : ∀ (l : String) (b : Bool), Event.stopE l b ∉ es₂ := by
      intro l b
      have := stop_not_mem_tierPhase (tiersOf procs) l b
      rwa [ht] at this
    have hsl : startedLabels inits procs =
        started.flatten.map (fun p => p.label) := by
      simp [startedLabels, startedTiersOf, hi, ht]
    cases m₂ with
    | some msg =>
      have hrun : (runModel inits procs script).1 =
          es ++ es₂ ++ [Event.emitE msg] ++ doCascade started [] := by
        simp [runModel, hi, ht]
      constructor
      · intro l
        rw [hrun, hsl, List.count_append, List.count_append, List.count_append,
          List.count_eq_zero.mpr (hes_nostop l true),
          List.count_eq_zero.mpr (hes2_nostop l true), doCascade_count]
        simp
      · intro l b hmem
        rw [hrun] at hmem
        rw [hsl]
        rcases List.mem_append.mp hmem with h | h
        · rcases List.mem_append.mp h with h₁ | h₁
          · rcases List.mem_append.mp h₁ with h₂ | h₂
            · exact absurd h₂ (hes_nostop l b)
            · exact absurd h₂ (hes2_nostop l b)
          · simp at h₁
        · exact stop_mem_doCascade started [] l b h
    | none =>
      have hrun : (runModel inits procs script).1 =
          es ++ es₂ ++ (supervise procs started [] [] script).1 := by
        simp [runModel, hi, ht]
      have hfired2 : (supervise procs started [] [] script).2 = true := by
        have heq : (runModel inits procs script).2 =
            (supervise procs started [] [] script).2 := by
          simp [runModel, hi, ht]
        rwa [heq] at hfired
      have hext2 : ∀ m, SupEvent.extStop m ∈ script →
          m ∈ started.flatten.map (fun p => p.label) := by
        intro m hm
        have := hext m hm
        rwa [hsl] at this
      constructor
      · intro l
        rw [hrun, hsl, List.count_append, List.count_append,
          List.count_eq_zero.mpr (hes_nostop l true),
          List.count_eq_zero.mpr (hes2_nostop l true),
          supervise_count procs started script [] [] hext2 hfired2 l]
        simp
      · intro l b hmem
        rw [hrun] at hmem
        rw [hsl]
        rcases List.mem_append.mp hmem with h | h
        · rcases List.mem_append.mp h with h₁ | h₁
          · exact absurd h₁ (hes_nostop l b)
          · exact absurd h₁ (hes2_nostop l b)
        · exact stop_mem_supervise procs started script [] [] l b hext2 h

/-- C3 witness: the amended claim at scenario D — `proc1` was started, so
it is effectively stopped exactly once in the run. -/
theorem claim3_witness :
    (runModel [] initErrProcs []).1.count (Event.stopE "proc1" true) =
      if "proc1" ∈ startedLabels [] initErrProcs then 1 else 0 :=
  (claim3_stop_iff_started_amended [] initErrProcs []
    (fun m hm => absurd hm (List.not_mem_nil _))
    (by decide)).1 "proc1"

end Nacelle
